import Mathlib

/-!
Verification of the AgroCoop pool-cache server (`src/server.js`).

This file gives a shallow embedding of the event hydration and
state-reconciliation engine of the server: the decoded-value universe the
Soroban decoder produces, the decoder helpers (`topicSym`, `topicNum`,
`extractAmount`, `extractPoolId`), the in-memory registry and orphan buffer,
the event reconciler inside `hydrateFromEvents`, the fetch/retry loop with
its range negotiation, the status derivation of `GET /api/pools`, the
snapshot persistence (`saveState` / `loadState`) and the registration
endpoints.  Theorems at the end settle the specification claims.

Modelling conventions:
* JavaScript values reachable from decoded events are modelled by `JsVal`.
  JS numbers are modelled by `ℚ` (finite doubles) with a separate `vNaN`
  marker for NaN/Infinity; BigInt is `ℤ`; decode failure is `vNull`.
* Number/BigInt string conversions are modelled for the decimal fragment of
  the JS grammar (optional sign, digits, optional fraction); hexadecimal and
  exponent forms are outside the model.
* `Number(x)` for arrays/objects (which goes through `ToPrimitive`) is
  modelled as NaN, and array elements carry no named fields.
* JS `Map` objects are modelled as insertion-ordered association lists.
* Statements that in JS throw an exception (e.g. `BigInt` on a non-numeric
  string) are modelled by `Option`/result values: `none` means the
  exception reaches the enclosing handler.
-/

mutual

/-- A decoded JavaScript value as produced by `scvToNativeSafe` and
manipulated by the reconciler.  `vNum` is a finite JS number (a rational),
`vNaN` stands for NaN (and non-finite numbers), `vNull` for `null` (also
the result of a failed decode). -/
inductive JsVal where
  | vNull
  | vBool (b : Bool)
  | vNum (q : ℚ)
  | vNaN
  | vBigInt (i : ℤ)
  | vStr (s : String)
  | vObj (fields : JsFields)
  | vArr (elems : JsElems)

/-- The ordered field list of a JS object value. -/
inductive JsFields where
  | nil
  | cons (key : String) (val : JsVal) (rest : JsFields)

/-- The ordered element list of a JS array value. -/
inductive JsElems where
  | nil
  | cons (head : JsVal) (rest : JsElems)

end

/-- Build an object field list from a Lean list of pairs. -/
def JsFields.ofList : List (String × JsVal) → JsFields
  | [] => .nil
  | (k, v) :: rest => .cons k v (JsFields.ofList rest)

/-- Build an array element list from a Lean list. -/
def JsElems.ofList : List JsVal → JsElems
  | [] => .nil
  | v :: rest => .cons v (JsElems.ofList rest)

/-- Shorthand for an object value given its fields. -/
def JsVal.obj (fields : List (String × JsVal)) : JsVal :=
  .vObj (JsFields.ofList fields)

namespace JsServer

open JsVal

/-! ### Kernel-friendly rational helpers

The arithmetic the server performs on JS numbers is expressed through
`mkRat` and integer arithmetic on numerators/denominators so that closed
computations evaluate inside the kernel. -/

/-- JS `Math.max` on numbers (no NaN argument in any modelled call). -/
def jsMax (a b : ℚ) : ℚ := if a < b then b else a

/-- Subtraction of JS numbers. -/
def ratSub (a b : ℚ) : ℚ :=
  mkRat (a.num * (b.den : ℤ) - b.num * (a.den : ℤ)) (a.den * b.den)

/-! ### Character-list string helpers (kernel-friendly replacements for the
String library functions the source uses: trim, toLowerCase, substring
tests, digit parsing). -/

/-- Whitespace characters removed by JS string trimming (ASCII subset). -/
def isWs (c : Char) : Bool :=
  c = ' ' || c = '\t' || c = '\n' || c = '\r'

/-- Trim whitespace from both ends of a character list. -/
def trimChars (cs : List Char) : List Char :=
  ((cs.dropWhile isWs).reverse.dropWhile isWs).reverse

/-- Numeric value of a list of decimal digit characters, most significant
first (value of the empty list is 0). -/
def digitsVal (cs : List Char) : ℕ :=
  cs.foldl (fun a c => a * 10 + (c.toNat - '0'.toNat)) 0

/-- All characters are decimal digits. -/
def allDigits (cs : List Char) : Bool :=
  cs.all Char.isDigit

/-- Does `s` start with `pat`? -/
def startsWithChars : List Char → List Char → Bool
  | [], _ => true
  | _ :: _, [] => false
  | a :: as, b :: bs => a = b && startsWithChars as bs

/-- Does `s` contain `pat` as a contiguous substring? -/
def containsChars (pat : List Char) : List Char → Bool
  | [] => startsWithChars pat []
  | c :: rest => startsWithChars pat (c :: rest) || containsChars pat rest

/-- Substring test on strings, used to model the regular-expression tests
of the tag dispatch (`/pool.*created|created|create_pool/i` etc. reduce to
substring containment on the lower-cased tag). -/
def strContains (s pat : String) : Bool :=
  containsChars pat.toList s.toList

/-- Lower-case a string (models `String.prototype.toLowerCase` for the
ASCII tags the server dispatches on). -/
def lowerStr (s : String) : String :=
  String.mk (s.toList.map Char.toLower)

/-- JS `Number(string)` on the decimal fragment: trimmed empty string is 0;
otherwise optional sign, then digits with an optional fractional part.
Returns `none` for NaN. -/
def strToNumber (s : String) : Option ℚ :=
  let cs := trimChars s.toList
  if cs.isEmpty then some 0 else
  let sgn : ℤ := if cs.head? = some '-' then -1 else 1
  let body := if cs.head? = some '-' || cs.head? = some '+' then cs.tail else cs
  let ip := body.takeWhile Char.isDigit
  let rest := body.dropWhile Char.isDigit
  match rest with
  | [] => if ip.isEmpty then none else some (mkRat (sgn * digitsVal ip) 1)
  | '.' :: fp =>
      if allDigits fp && !(ip.isEmpty && fp.isEmpty) then
        some (mkRat (sgn * (digitsVal ip * 10 ^ fp.length + digitsVal fp)) (10 ^ fp.length))
      else none
  | _ => none

/-- JS `BigInt(string)`: trimmed empty string is `0n`; otherwise optional
sign and decimal digits; anything else throws (`none`). -/
def strToBigInt (s : String) : Option ℤ :=
  let cs := trimChars s.toList
  if cs.isEmpty then some 0 else
  let sgn : ℤ := if cs.head? = some '-' then -1 else 1
  let body := if cs.head? = some '-' || cs.head? = some '+' then cs.tail else cs
  if body.isEmpty then none
  else if allDigits body then some (sgn * digitsVal body) else none

/-- The test `/^-?\d+$/.test(s)` used by `extractAmount` on string
payloads: optional leading minus then one or more digits, not trimmed. -/
def isIntLiteral (s : String) : Bool :=
  let cs := s.toList
  let body := if cs.head? = some '-' then cs.tail else cs
  !body.isEmpty && allDigits body

/-- Decimal rendering of an integer, as JS `String(bigint)` /
`String(integral number)` produce. -/
def intStr (i : ℤ) : String := toString i

/-- JS `String(number)` restricted to the values the theorems exercise:
integral rationals render in decimal; non-integral values get a canonical
fraction rendering (the server only ever stringifies integral numbers). -/
def ratToString (q : ℚ) : String :=
  if q.den = 1 then intStr q.num else intStr q.num ++ "/" ++ toString q.den

/-! ### JS value coercions -/

/-- Find the binding of `key` in an object field list (first wins, as for
the duplicate-free objects the decoder produces). -/
def findFieldJF : JsFields → String → Option JsVal
  | .nil, _ => none
  | .cons k v rest, key => if k = key then some v else findFieldJF rest key

/-- Field lookup on an object value; non-objects have no fields. -/
def getField : JsVal → String → Option JsVal
  | .vObj fields, k => findFieldJF fields k
  | _, _ => none

/-- Lookup skipping nullish values: models `x?.k` followed by a `?? _` or
`!= null` test, where both a missing field and an explicit `null` count as
absent. -/
def getNonNull (v : JsVal) (k : String) : Option JsVal :=
  match getField v k with
  | some .vNull => none
  | o => o

/-- JS truthiness of a decoded value. -/
def jsTruthy : JsVal → Bool
  | .vNull => false
  | .vBool b => b
  | .vNum q => q ≠ 0
  | .vNaN => false
  | .vBigInt i => i ≠ 0
  | .vStr s => s ≠ ""
  | .vObj _ => true
  | .vArr _ => true

/-- JS `Number(x)` (`none` = NaN).  Arrays and objects are modelled as NaN
(see the module comment). -/
def toNumber : JsVal → Option ℚ
  | .vNull => some 0
  | .vBool b => some (if b then 1 else 0)
  | .vNum q => some q
  | .vNaN => none
  | .vBigInt i => some (mkRat i 1)
  | .vStr s => strToNumber s
  | .vObj _ => none
  | .vArr _ => none

/-- JS `BigInt(x)` (`none` = the conversion throws).  `BigInt` of a
non-integral or non-finite number throws, as does `BigInt(null)` and
`BigInt` of objects/arrays (ToPrimitive is outside the model). -/
def jsBigIntOfVal : JsVal → Option ℤ
  | .vBigInt i => some i
  | .vNum q => if q.den = 1 then some q.num else none
  | .vNaN => none
  | .vBool b => some (if b then 1 else 0)
  | .vStr s => strToBigInt s
  | .vNull => none
  | .vObj _ => none
  | .vArr _ => none

/-! ### JS string rendering (`String(v)`) -/

mutual

/-- JS `String(v)` on decoded values.  Objects render as
`[object Object]`; arrays join their elements with commas. -/
def jsToString : JsVal → String
  | .vNull => "null"
  | .vBool true => "true"
  | .vBool false => "false"
  | .vNum q => ratToString q
  | .vNaN => "NaN"
  | .vBigInt i => intStr i
  | .vStr s => s
  | .vObj _ => "[object Object]"
  | .vArr elems => jsToStringList elems

/-- Comma-joined rendering of array elements (`null` elements render
empty, as in `Array.prototype.toString`). -/
def jsToStringList : JsElems → String
  | .nil => ""
  | .cons .vNull .nil => ""
  | .cons x .nil => jsToString x
  | .cons .vNull rest => "," ++ jsToStringList rest
  | .cons x rest => jsToString x ++ "," ++ jsToStringList rest

end

/-! ### Decoder helpers (`topicSym`, `topicNum`, `extractAmount`,
`extractPoolId` from `src/server.js`).

Topics are modelled by their decoded values; the raw XDR carriers the
server holds are always truthy objects, so the `topics[k] ? ... : ...`
truthiness tests in the source are modelled as index-existence tests. -/

/-- `topicSym`: a decoded string is returned as is; otherwise a truthy
value with a truthy string `sym` field yields that field; otherwise the
value is stringified.  (Non-string `sym` fields, which would make the
downstream `toLowerCase` throw, are outside the model.) -/
def topicSym (t : JsVal) : String :=
  match t with
  | .vStr s => s
  | v =>
      if jsTruthy v then
        match getField v "sym" with
        | some (.vStr s) => if s ≠ "" then s else jsToString v
        | _ => jsToString v
      else jsToString v

/-- `topicNum`: `Number` of the decoded topic, `null` when not finite. -/
def topicNum (t : JsVal) : Option ℚ :=
  toNumber t

/-- The amount field names scanned by `extractAmount`. -/
def amountFieldNames : List String :=
  ["amount", "delta", "value", "raised", "contribution"]

/-- First amount-candidate field of an object payload: the first name in
`amountFieldNames` bound to a non-nullish value. -/
def firstAmountField (v : JsVal) : Option JsVal :=
  amountFieldNames.findSome? (getNonNull v)

mutual

/-- `extractAmount`: BigInt payloads directly; numbers through `BigInt`
(throwing, hence 0, on non-integral values); strings matching `^-?\d+$`
through `BigInt`; objects through the known field names (a throwing
conversion yields 0 because of the surrounding `catch`); arrays through
the first element with a non-zero extracted amount; everything else 0. -/
def extractAmount : JsVal → ℤ
  | .vBigInt i => i
  | .vNum q => if q.den = 1 then q.num else 0
  | .vStr s => if isIntLiteral s then (strToBigInt s).getD 0 else 0
  | .vObj fields =>
      match firstAmountField (.vObj fields) with
      | some v => (jsBigIntOfVal v).getD 0
      | none => 0
  | .vArr elems => extractAmountList elems
  | _ => 0

/-- Array scan of `extractAmount`: first non-zero extracted element. -/
def extractAmountList : JsElems → ℤ
  | .nil => 0
  | .cons x xs =>
      if extractAmount x ≠ 0 then extractAmount x else extractAmountList xs

end

/-- The id field names scanned by `extractPoolId`. -/
def idFieldNames : List String :=
  ["id", "pool", "pool_id", "poolId"]

/-- `Number` of a topic filtered to finite positive values. -/
def posNum (t : JsVal) : Option ℚ :=
  match topicNum t with
  | some q => if 0 < q then some q else none
  | none => none

/-- Step 1 of `extractPoolId`: first known id field of an object payload
whose `Number` conversion is finite and positive. -/
def firstIdField (native : JsVal) : Option ℚ :=
  match native with
  | .vObj _ =>
      idFieldNames.findSome? (fun k =>
        match toNumber ((getField native k).getD .vNaN) with
        | some q => if 0 < q then some q else none
        | none => none)
  | _ => none

/-- `extractPoolId`: known id fields of the payload, else the second topic
if it converts to a finite positive number, else the first topic that
does, else unresolved. -/
def extractPoolId (native : JsVal) (topics : List JsVal) : Option ℚ :=
  (firstIdField native).orElse fun _ =>
    (((topics.get? 1).bind posNum).orElse fun _ =>
      topics.findSome? posNum)

/-! ### Registry data model -/

/-- A cached pool as the server stores it: `id` is the JS number produced
at creation/registration (`none` encodes NaN), `goal` and `raised` are the
strings the server stores (possibly non-numeric, e.g. `"undefined"`),
`deadline` is a JS number (`none` = NaN), `finalized` a boolean. -/
structure Pool where
  id : Option ℚ
  goal : String
  raised : String
  deadline : Option ℚ
  finalized : Bool
deriving DecidableEq, Repr

/-- The mutable server state: the pool registry (`pools`), the orphan
contribution buffer (`pendingRaised`), and the scan cursor
(`lastScannedLedger`), each modelled as in the source. -/
structure St where
  pools : List (String × Pool)
  pendingRaised : List (String × ℤ)
  lastScannedLedger : ℚ
deriving DecidableEq, Repr

/-- The state at process start. -/
def emptySt : St := ⟨[], [], 0⟩

/-! ### Association-list operations modelling JS `Map` -/

/-- `Map.prototype.get`. -/
def mapGet (m : List (String × α)) (k : String) : Option α :=
  (m.find? (fun kv => kv.1 == k)).map (·.2)

/-- `Map.prototype.set`: replace in place, else append. -/
def mapSet : List (String × α) → String → α → List (String × α)
  | [], k, v => [(k, v)]
  | (k', v') :: rest, k, v =>
      if k' = k then (k', v) :: rest else (k', v') :: mapSet rest k v

/-- `Map.prototype.delete`: remove the binding for `k`. -/
def mapDelete : List (String × α) → String → List (String × α)
  | [], _ => []
  | (k', v') :: rest, k =>
      if k' = k then rest else (k', v') :: mapDelete rest k

/-! ### Event reconciler (`hydrateFromEvents`, lines 238-311) -/

/-- One event as the pass loop sees it: the decoded payload (`native`),
the decoded topic list, and the resolved ledger position
(`e.ledger ?? e.ledgerSequence ?? 0`, assumed numeric). -/
structure RawEvent where
  native : JsVal
  topics : List JsVal
  ledger : ℚ

/-- Creation-tag test: `tagNorm === 'pc'` or the lower-cased tag matches
`/pool.*created|created|create_pool/i`, which on a lower-cased string is
containment of `created` or `create_pool`. -/
def isCreationTag (t : String) : Bool :=
  t = "pc" || strContains t "created" || strContains t "create_pool"

/-- Contribution-tag test: `'ctr'` or containment of `contribut`. -/
def isContribTag (t : String) : Bool :=
  t = "ctr" || strContains t "contribut"

/-- Finalize-tag test: `'fn'` or containment of `finaliz`. -/
def isFinalTag (t : String) : Bool :=
  t = "fn" || strContains t "finaliz"

/-- The pool object built by the creation branch before the orphan merge:
spread fields aside (they are not modelled), `id` is the resolved pid,
`goal` is `String(native?.goal ?? native?.target ?? 0)`, `raised` is
`String(native?.raised ?? 0)`, `deadline` is `Number(native?.deadline ?? 0)`
and `finalized` is `Boolean(native?.finalized)`. -/
def buildCreationPool (pid : ℚ) (native : JsVal) : Pool :=
  { id := some pid
    goal := jsToString (((getNonNull native "goal").orElse
              fun _ => getNonNull native "target").getD (.vNum 0))
    raised := jsToString ((getNonNull native "raised").getD (.vNum 0))
    deadline := toNumber ((getNonNull native "deadline").getD (.vNum 0))
    finalized := jsTruthy ((getField native "finalized").getD .vNull) }

/-- The dispatch on the normalized tag for an event whose pool id has
resolved, before the cursor update.  `none` models an exception escaping
to the outer catch (only `BigInt` on a stored non-numeric `raised` string
can throw here); the state at the throw equals the input state because in
every throwing position no mutation has happened yet. -/
def dispatchEvent (st : St) (pid : ℚ) (tagNorm : String) (native : JsVal) :
    Option St :=
  let key := ratToString pid
  if isCreationTag tagNorm then
    let obj := buildCreationPool pid native
    match mapGet st.pendingRaised key with
    | some b =>
        if b ≠ 0 then
          match strToBigInt obj.raised with
          | none => none
          | some r =>
              some { st with
                pools := mapSet st.pools key { obj with raised := intStr (r + b) }
                pendingRaised := mapDelete st.pendingRaised key }
        else some { st with pools := mapSet st.pools key obj }
    | none => some { st with pools := mapSet st.pools key obj }
  else if isContribTag tagNorm then
    let delta := extractAmount native
    match mapGet st.pools key with
    | some p =>
        match strToBigInt p.raised with
        | none => none
        | some prev =>
            some { st with
              pools := mapSet st.pools key { p with raised := intStr (prev + delta) } }
    | none =>
        some { st with
          pendingRaised := mapSet st.pendingRaised key
            ((mapGet st.pendingRaised key).getD 0 + delta) }
  else if isFinalTag tagNorm then
    match mapGet st.pools key with
    | some p => some { st with pools := mapSet st.pools key { p with finalized := true } }
    | none => some st
  else
    let p0 := (mapGet st.pools key).getD
      { id := some pid, goal := "0", raised := "0", deadline := some 0, finalized := false }
    let p1 :=
      match native with
      | .vObj _ | .vArr _ =>
          let pG := match getNonNull native "goal" with
            | some v => { p0 with goal := jsToString v } | none => p0
          let pR := match getNonNull native "raised" with
            | some v => { pG with raised := jsToString v } | none => pG
          let pD := match getNonNull native "deadline" with
            | some v => { pR with deadline := toNumber v } | none => pR
          match getNonNull native "finalized" with
          | some v => { pD with finalized := jsTruthy v } | none => pD
      | _ => p0
    some { st with pools := mapSet st.pools key p1 }

/-- Processing of one event by the page loop: resolve the tag and the pool
id; an event with no id is skipped (state untouched, not counted, cursor
not advanced); otherwise dispatch and then advance the cursor to the
maximum of its value and the event's ledger position.  The boolean records
whether `processed` was incremented; `none` models a thrown exception. -/
def applyEvent (st : St) (e : RawEvent) : Option (St × Bool) :=
  let tagNorm := lowerStr (((e.topics.get? 0).map topicSym).getD "")
  match extractPoolId e.native e.topics with
  | none => some (st, false)
  | some pid =>
      (dispatchEvent st pid tagNorm e.native).map fun st' =>
        ({ st' with lastScannedLedger := jsMax st'.lastScannedLedger e.ledger }, true)

/-- Apply a list of events in order, stopping at the first exception
(which aborts the page loop to the outer catch). -/
def applyList : St → List RawEvent → Option St
  | st, [] => some st
  | st, e :: es =>
      match applyEvent st e with
      | none => none
      | some (st', _) => applyList st' es

/-- Apply a list of events, also tracking the `processed` counter and
whether an exception escaped. -/
def applyListCount : St → ℕ → List RawEvent → St × ℕ × Bool
  | st, n, [] => (st, n, false)
  | st, n, e :: es =>
      match applyEvent st e with
      | none => (st, n, true)
      | some (st', counted) =>
          applyListCount st' (if counted then n + 1 else n) es

/-! ### The fetch loop and range negotiation (`hydrateFromEvents`,
lines 183-327)

The classification of a `getEvents` failure is modelled by an error shape:
the source tests the message against `/must be positive/i` and
`/within the ledger range:\s*(\d+)\s*-\s*(\d+)/i`; an error matching
neither is `other`.  Responses of the remote service are scripted: each
iteration of the `retryFetch` do-while loop consumes the next entry. -/

/-- Shape of a `getEvents` failure after the regex classification. -/
inductive FetchErr where
  | mustBePositive
  | outOfRange (lo hi : ℚ)
  | other
deriving DecidableEq, Repr

/-- One page returned by `getEvents`: its events and the continuation
token (`ev.paginationToken || ev.cursor || null`; a falsy token is
`none`). -/
structure FetchPage where
  events : List RawEvent
  nextToken : Option ℕ

/-- One scripted response of the remote service. -/
inductive FetchResult where
  | ok (page : FetchPage)
  | err (e : FetchErr)

/-- `clampPos`: `Math.max(1, Number(x || 0))` on a numeric argument. -/
def clampPos (x : ℚ) : ℚ := jsMax 1 x

/-- Numeric `||`: first operand unless it is falsy (zero). -/
def jsOr (a b : ℚ) : ℚ := if a ≠ 0 then a else b

/-- Start-position resolution at the top of a pass:
`fromLedger === 0` forces 1, otherwise
`clampPos(fromLedger || lastScannedLedger || (latest.sequence - DEFAULT_WINDOW))`. -/
def resolveStart (fromLedger : Option ℚ) (cursor tip window : ℚ) : ℚ :=
  match fromLedger with
  | some f => if f = 0 then 1 else clampPos (jsOr f (jsOr cursor (ratSub tip window)))
  | none => clampPos (jsOr cursor (ratSub tip window))

/-- Observable outcome of one run of the `retryFetch` loop. -/
structure PassReport where
  /-- The start position of each `getEvents` call actually issued. -/
  attempts : List ℚ
  /-- The value of the local `start` variable when the loop ends (a
  classified error adjusts it even though no further fetch uses it). -/
  finalStart : ℚ
  finalSt : St
  processed : ℕ
  /-- An exception from the apply phase escaped to the outer catch. -/
  threw : Bool
  /-- The loop wanted another iteration but the script ended (never the
  case in the scripted theorems below). -/
  scriptShort : Bool
deriving DecidableEq, Repr

/-- The `retryFetch` do-while loop.  On a classified error the source
adjusts `start`, clears `paginationToken` and executes
`continue retryFetch`; in a do-while, `continue` transfers control to the
loop test `while (paginationToken)`, and the token was just cleared, so
the loop exits without issuing another fetch.  An unclassified error (or
an in-range classified one) `break`s.  A successful page is applied; an
apply exception escapes to the outer catch; otherwise the loop repeats
while the returned token is truthy. -/
def fetchLoop (tip window : ℚ) :
    List FetchResult → ℚ → St → ℕ → List ℚ → PassReport
  | [], start, st, n, tr => ⟨tr, start, st, n, false, true⟩
  | r :: rest, start, st, n, tr =>
      let tr' := tr ++ [start]
      match r with
      | .err .mustBePositive => ⟨tr', clampPos (ratSub tip window), st, n, false, false⟩
      | .err (.outOfRange lo hi) =>
          if start < lo then ⟨tr', lo, st, n, false, false⟩
          else if hi < start then ⟨tr', jsMax lo (ratSub hi window), st, n, false, false⟩
          else ⟨tr', start, st, n, false, false⟩
      | .err .other => ⟨tr', start, st, n, false, false⟩
      | .ok page =>
          match applyListCount st n page.events with
          | (st', n', true) => ⟨tr', start, st', n', true, false⟩
          | (st', n', false) =>
              match page.nextToken with
              | none => ⟨tr', start, st', n', false, false⟩
              | some _ => fetchLoop tip window rest start st' n' tr'

/-- What the caller of `hydrateFromEvents` observes of the returned
promise: it resolves, or it rejects with a fatal pass failure. -/
inductive HydrateOutcome where
  | resolved (st : St)
  | rejected
deriving DecidableEq, Repr

/-- One whole pass of `hydrateFromEvents` as its caller observes it.  The
entire body runs inside `try { ... } catch (e) { console.error(...) }
finally { hydratingPromise = null }`: every error — a break out of the
fetch loop as well as an exception caught by the outer catch — is
swallowed, so the promise always resolves. -/
def hydrateModel (tip window : ℚ) (script : List FetchResult)
    (fromLedger : Option ℚ) (st : St) : HydrateOutcome :=
  let start := resolveStart fromLedger st.lastScannedLedger tip window
  let rep := fetchLoop tip window script start st 0 []
  .resolved rep.finalSt

/-! ### Derived status (`GET /api/pools`, lines 360-366) -/

/-- The derived, never-stored pool status. -/
inductive Status where
  | active
  | expired
  | funded
  | finalized
deriving DecidableEq, Repr

/-- Is `now > Number(p.deadline)`?  A NaN deadline compares false. -/
def jsDeadlinePast (now : ℚ) (d : Option ℚ) : Bool :=
  match d with
  | some q => q < now
  | none => false

/-- Status derivation at read time:
`finalized ? 'finalized' : (now > deadline ? 'expired' :
(BigInt(raised) >= BigInt(goal) ? 'funded' : 'active'))`.
`none` models the `BigInt` conversion throwing on a non-numeric stored
string. -/
def poolStatus (now : ℚ) (p : Pool) : Option Status :=
  if p.finalized then some .finalized
  else if jsDeadlinePast now p.deadline then some .expired
  else
    match strToBigInt p.raised, strToBigInt p.goal with
    | some r, some g => some (if g ≤ r then .funded else .active)
    | _, _ => none

/-- The status computation of the pool-listing read over all cached
pools; `none` models the map throwing, which the route handler turns into
an HTTP 500 response. -/
def listWithStatus (now : ℚ) : List Pool → Option (List Status)
  | [] => some []
  | p :: ps =>
      match poolStatus now p with
      | none => none
      | some s => (listWithStatus now ps).map (s :: ·)

/-! ### Persistence (`saveState` / `loadState`, lines 119-145) -/

/-- The durable snapshot: cursor and the pool objects in registry order
(the `savedAt` timestamp carries no state).  The JSON serialization layer
is the identity on the modelled pools. -/
structure Snapshot where
  lastScannedLedger : ℚ
  poolsList : List Pool
deriving DecidableEq, Repr

/-- `saveState`: snapshot the cursor and `[...pools.values()]`. -/
def saveStateModel (st : St) : Snapshot :=
  ⟨st.lastScannedLedger, st.pools.map Prod.snd⟩

/-- The key under which `loadState` re-inserts a restored pool:
`String(p.id)` (a NaN id renders as `"NaN"`). -/
def idKey : Option ℚ → String
  | some q => ratToString q
  | none => "NaN"

/-- `loadState`: clear the registry, re-insert every snapshot pool under
`String(p.id)`, and set the cursor to
`Math.max(0, Number(data.lastScannedLedger || 0))`.  The orphan buffer is
not touched. -/
def loadStateModel (st : St) (snap : Snapshot) : St :=
  { st with
    pools := snap.poolsList.foldl (fun m p => mapSet m (idKey p.id) p) []
    lastScannedLedger := jsMax 0 snap.lastScannedLedger }

/-! ### Registration endpoints (`POST /api/pools/register` and
`/api/pools/register-batch`, lines 500-554) -/

/-- `String(pool.id ?? pool.pool_id ?? pool.poolId)`: the first
non-nullish of the three fields, stringified; if all are nullish the
stringified nullish value itself (`"null"` or `"undefined"`). -/
def poolIdString (pool : JsVal) : String :=
  match getNonNull pool "id" with
  | some v => jsToString v
  | none =>
      match getNonNull pool "pool_id" with
      | some v => jsToString v
      | none =>
          match getField pool "poolId" with
          | some .vNull => "null"
          | some v => jsToString v
          | none => "undefined"

/-- Result of the single-pool registration endpoint. -/
inductive RegisterResult where
  | badRequest (msg : String)
  | ok (st : St)
deriving DecidableEq, Repr

/-- `POST /api/pools/register`: reject a missing/falsy `pool` body or an
empty id string; otherwise normalize
`{id: Number(id), goal: String(pool.goal), raised: String(pool.raised ?? 0),
deadline: Number(pool.deadline), finalized: Boolean(pool.finalized)}` and
upsert it under `String(normalized.id)`.  A missing `goal` stringifies to
`"undefined"`; a missing `deadline` becomes NaN. -/
def registerPoolHandler (st : St) (pool : Option JsVal) : RegisterResult :=
  match pool with
  | none => .badRequest "missing pool"
  | some pv =>
      if ¬ jsTruthy pv then .badRequest "missing pool" else
      let idStr := poolIdString pv
      if idStr = "" then .badRequest "missing pool.id" else
      let idNum := strToNumber idStr
      let p : Pool :=
        { id := idNum
          goal := match getField pv "goal" with
            | some v => jsToString v | none => "undefined"
          raised := jsToString ((getNonNull pv "raised").getD (.vNum 0))
          deadline := match getField pv "deadline" with
            | some v => toNumber v | none => none
          finalized := jsTruthy ((getField pv "finalized").getD .vNull) }
      .ok { st with pools := mapSet st.pools (idKey idNum) p }

/-- One item of `POST /api/pools/register-batch`: skipped when the id
string is empty; otherwise stored under the RAW id string (not the
normalized `String(Number(id))` the single-register endpoint uses), with
`goal`/`raised` defaulting to `'0'` and `deadline` to 0. -/
def registerBatchItem (st : St) (pool : JsVal) : St :=
  let idStr := poolIdString pool
  if idStr = "" then st
  else
    let p : Pool :=
      { id := strToNumber idStr
        goal := jsToString ((getNonNull pool "goal").getD (.vStr "0"))
        raised := jsToString ((getNonNull pool "raised").getD (.vStr "0"))
        deadline := toNumber ((getNonNull pool "deadline").getD (.vNum 0))
        finalized := jsTruthy ((getField pool "finalized").getD .vNull) }
    { st with pools := mapSet st.pools idStr p }

/-! ### Single-flight coordinator (lines 183-185 and 322-326)

`hydrateFromEvents` keeps one module-level `hydratingPromise`: a caller
finding it non-null joins it and receives the same promise (hence the
same eventual outcome); otherwise it stores a fresh promise.  The
`finally` clears the gate, and an async function's `finally` runs before
its promise settles, so the gate is released before any waiter resolves.
Promises are identified by numeric tokens. -/

/-- The single-flight gate and the list of passes actually started. -/
structure Coordinator where
  hydratingPromise : Option ℕ
  started : List ℕ
deriving DecidableEq, Repr

/-- The coordinator at process start. -/
def coordInit : Coordinator := ⟨none, []⟩

/-- A call to `hydrateFromEvents`: join the in-flight promise if the gate
is held, else start a fresh pass and hold the gate. -/
def hydrateCall (c : Coordinator) (fresh : ℕ) : Coordinator × ℕ :=
  match c.hydratingPromise with
  | some p => (c, p)
  | none => (⟨some fresh, c.started ++ [fresh]⟩, fresh)

/-- Completion of the in-flight pass: the `finally` clears the gate
first, and only then is the (single, shared) promise resolved for every
waiter. -/
def passComplete (c : Coordinator) : Coordinator × Option ℕ :=
  (⟨none, c.started⟩, c.hydratingPromise)

/-! ### Canonical event shapes used by the theorems -/

/-- A contribution event for pool `pid` with delta `d`: tag topic `CTR`,
id in the second topic, amount in the payload's `amount` field. -/
def ctrEvent (pid : ℚ) (d : ℤ) : RawEvent :=
  ⟨JsVal.obj [("amount", .vBigInt d)], [.vStr "CTR", .vNum pid], 0⟩

/-- A creation event for pool `pid` whose payload omits `raised`. -/
def pcEvent (pid : ℚ) : RawEvent :=
  ⟨JsVal.obj [], [.vStr "PC", .vNum pid], 0⟩

/-- A creation event for pool `pid` whose payload carries `raised: 0`. -/
def pcEventZero (pid : ℚ) : RawEvent :=
  ⟨JsVal.obj [("raised", .vNum 0)], [.vStr "PC", .vNum pid], 0⟩

/-! ### Helper lemmas -/

theorem jsMax_eq_max (a b : ℚ) : jsMax a b = max a b := by
  unfold jsMax
  split
  · exact (max_eq_right (le_of_lt (by assumption))).symm
  · exact (max_eq_left (not_lt.mp (by assumption))).symm

theorem jsMax_eq_left (a b : ℚ) (h : b ≤ a) : jsMax a b = a := by
  rw [jsMax_eq_max]; exact max_eq_left h

theorem le_jsMax_left (a b : ℚ) : a ≤ jsMax a b := by
  rw [jsMax_eq_max]; exact le_max_left a b

theorem mapGet_mapSet_self (m : List (String × α)) (k : String) (v : α) :
    mapGet (mapSet m k v) k = some v := by
  induction m with
  | nil => simp [mapGet, mapSet]
  | cons kv rest ih =>
      obtain ⟨k', v'⟩ := kv
      by_cases h : k' = k
      · simp [mapGet, mapSet, h]
      · simpa [mapGet, mapSet, h] using ih

theorem mapSet_mapSet_self (m : List (String × α)) (k : String) (a b : α) :
    mapSet (mapSet m k a) k b = mapSet m k b := by
  induction m with
  | nil => simp [mapSet]
  | cons kv rest ih =>
      obtain ⟨k', v'⟩ := kv
      by_cases h : k' = k
      · simp [mapSet, h]
      · simp [mapSet, h, ih]

theorem mapGet_cons_eq (k' k : String) (v' : α) (rest : List (String × α))
    (hk : k' = k) : mapGet ((k', v') :: rest) k = some v' := by
  simp [mapGet, List.find?, hk]

theorem mapGet_cons_ne (k' k : String) (v' : α) (rest : List (String × α))
    (hk : k' ≠ k) : mapGet ((k', v') :: rest) k = mapGet rest k := by
  simp only [mapGet, List.find?]
  have : (k' == k) = false := by simp [hk]
  rw [this]

theorem mapGet_eq_none_of_not_mem (m : List (String × α)) (k : String)
    (h : k ∉ m.map Prod.fst) : mapGet m k = none := by
  induction m with
  | nil => simp [mapGet]
  | cons kv rest ih =>
      obtain ⟨k', v'⟩ := kv
      simp only [List.map_cons, List.mem_cons] at h
      push_neg at h
      rw [mapGet_cons_ne _ _ _ _ (Ne.symm h.1)]
      exact ih h.2

theorem mapSet_eq_self_of_mapGet (m : List (String × α)) (k : String) (v : α)
    (h : mapGet m k = some v) : mapSet m k v = m := by
  induction m with
  | nil => simp [mapGet] at h
  | cons kv rest ih =>
      obtain ⟨k', v'⟩ := kv
      by_cases hk : k' = k
      · rw [mapGet_cons_eq _ _ _ _ hk] at h
        injection h with h
        simp [mapSet, hk, h]
      · rw [mapGet_cons_ne _ _ _ _ hk] at h
        simp [mapSet, hk, ih h]

theorem mapGet_mapDelete_self (m : List (String × α)) (k : String)
    (hnd : (m.map Prod.fst).Nodup) : mapGet (mapDelete m k) k = none := by
  induction m with
  | nil => simp [mapGet, mapDelete]
  | cons kv rest ih =>
      obtain ⟨k', v'⟩ := kv
      simp only [List.map_cons, List.nodup_cons] at hnd
      by_cases hk : k' = k
      · subst hk
        simp only [mapDelete, if_pos rfl]
        exact mapGet_eq_none_of_not_mem rest k' hnd.1
      · simp only [mapDelete, if_neg hk]
        rw [mapGet_cons_ne _ _ _ _ hk]
        exact ih hnd.2

theorem mem_mapSet_self (m : List (String × α)) (k : String) (v : α) :
    (k, v) ∈ mapSet m k v := by
  induction m with
  | nil => simp [mapSet]
  | cons kv rest ih =>
      obtain ⟨k', v'⟩ := kv
      by_cases h : k' = k
      · subst h; simp [mapSet]
      · simp [mapSet, h, ih]

theorem mapSet_append_of_not_mem (m : List (String × α)) (k : String) (v : α)
    (h : k ∉ m.map Prod.fst) : mapSet m k v = m ++ [(k, v)] := by
  induction m with
  | nil => simp [mapSet]
  | cons kv rest ih =>
      obtain ⟨k', v'⟩ := kv
      simp only [List.map_cons, List.mem_cons] at h
      push_neg at h
      simp [mapSet, Ne.symm h.1, ih h.2]

theorem listWithStatus_none_of_mem (now : ℚ) (l : List Pool) (p : Pool)
    (hmem : p ∈ l) (hp : poolStatus now p = none) :
    listWithStatus now l = none := by
  induction l with
  | nil => simp at hmem
  | cons q rest ih =>
      rcases List.mem_cons.mp hmem with h | h
      · subst h; simp [listWithStatus, hp]
      · cases hq : poolStatus now q with
        | none => simp [listWithStatus, hq]
        | some s => simp [listWithStatus, hq, ih h]

/-! ### Evaluation lemmas for the canonical events -/

theorem extractPoolId_eval (native t0 : JsVal) (pid : ℚ) (rest : List JsVal)
    (hid : firstIdField native = none) (hp : 0 < pid) :
    extractPoolId native (t0 :: .vNum pid :: rest) = some pid := by
  unfold extractPoolId
  rw [hid]
  simp [Option.orElse, posNum, topicNum, toNumber, hp]

theorem extractPoolId_ctrEvent (pid : ℚ) (d : ℤ) (hp : 0 < pid) :
    extractPoolId (ctrEvent pid d).native (ctrEvent pid d).topics = some pid :=
  extractPoolId_eval _ _ pid [] rfl hp

theorem extractPoolId_pcEvent (pid : ℚ) (hp : 0 < pid) :
    extractPoolId (pcEvent pid).native (pcEvent pid).topics = some pid :=
  extractPoolId_eval _ _ pid [] rfl hp

theorem extractPoolId_pcEventZero (pid : ℚ) (hp : 0 < pid) :
    extractPoolId (pcEventZero pid).native (pcEventZero pid).topics = some pid :=
  extractPoolId_eval _ _ pid [] rfl hp

theorem applyEvent_ctrEvent (st : St) (pid : ℚ) (d : ℤ) (hp : 0 < pid)
    (hpool : mapGet st.pools (ratToString pid) = none) :
    applyEvent st (ctrEvent pid d) =
      some ({ st with
        pendingRaised := mapSet st.pendingRaised (ratToString pid)
          ((mapGet st.pendingRaised (ratToString pid)).getD 0 + d)
        lastScannedLedger := jsMax st.lastScannedLedger 0 }, true) := by
  have h1 := extractPoolId_ctrEvent pid d hp
  have h2 : lowerStr ((((ctrEvent pid d).topics.get? 0).map topicSym).getD "") = "ctr" := rfl
  have h3 : extractAmount (ctrEvent pid d).native = d := rfl
  simp only [applyEvent, h1, h2]
  have h4 : dispatchEvent st pid "ctr" (ctrEvent pid d).native =
      some { st with
        pendingRaised := mapSet st.pendingRaised (ratToString pid)
          ((mapGet st.pendingRaised (ratToString pid)).getD 0 + d) } := by
    simp only [dispatchEvent, h3]
    rw [show isCreationTag "ctr" = false from rfl,
        show isContribTag "ctr" = true from rfl]
    simp [hpool]
  rw [h4]
  rfl

theorem buildCreationPool_pcEvent (pid : ℚ) :
    buildCreationPool pid (pcEvent pid).native =
      ⟨some pid, "0", "0", some 0, false⟩ := rfl

theorem buildCreationPool_pcEventZero (pid : ℚ) :
    buildCreationPool pid (pcEventZero pid).native =
      ⟨some pid, "0", "0", some 0, false⟩ := rfl

theorem applyEvent_creation (st : St) (pid : ℚ) (hp : 0 < pid) (e : RawEvent)
    (he : e = pcEvent pid ∨ e = pcEventZero pid) :
    applyEvent st e =
      (match mapGet st.pendingRaised (ratToString pid) with
      | some b =>
          if b ≠ 0 then
            some ({ st with
              pools := mapSet st.pools (ratToString pid)
                ⟨some pid, "0", intStr b, some 0, false⟩
              pendingRaised := mapDelete st.pendingRaised (ratToString pid)
              lastScannedLedger := jsMax st.lastScannedLedger 0 }, true)
          else
            some ({ st with
              pools := mapSet st.pools (ratToString pid)
                ⟨some pid, "0", "0", some 0, false⟩
              lastScannedLedger := jsMax st.lastScannedLedger 0 }, true)
      | none =>
          some ({ st with
            pools := mapSet st.pools (ratToString pid)
              ⟨some pid, "0", "0", some 0, false⟩
            lastScannedLedger := jsMax st.lastScannedLedger 0 }, true)) := by
  have hid : extractPoolId e.native e.topics = some pid := by
    rcases he with h | h <;> subst h
    · exact extractPoolId_pcEvent pid hp
    · exact extractPoolId_pcEventZero pid hp
  have htag : lowerStr (((e.topics.get? 0).map topicSym).getD "") = "pc" := by
    rcases he with h | h <;> subst h <;> rfl
  have hbuild : buildCreationPool pid e.native = ⟨some pid, "0", "0", some 0, false⟩ := by
    rcases he with h | h <;> subst h <;> rfl
  simp only [applyEvent, hid, htag]
  have hdisp : dispatchEvent st pid "pc" e.native =
      (match mapGet st.pendingRaised (ratToString pid) with
      | some b =>
          if b ≠ 0 then
            some { st with
              pools := mapSet st.pools (ratToString pid)
                ⟨some pid, "0", intStr b, some 0, false⟩
              pendingRaised := mapDelete st.pendingRaised (ratToString pid) }
          else
            some { st with
              pools := mapSet st.pools (ratToString pid)
                ⟨some pid, "0", "0", some 0, false⟩ }
      | none =>
          some { st with
            pools := mapSet st.pools (ratToString pid)
              ⟨some pid, "0", "0", some 0, false⟩ }) := by
    simp only [dispatchEvent, hbuild]
    rw [show isCreationTag "pc" = true from rfl]
    simp only [if_pos rfl]
    cases hb : mapGet st.pendingRaised (ratToString pid) with
    | none => simp
    | some b =>
        by_cases hz : b = 0
        · subst hz; simp
        · have : strToBigInt (Pool.raised ⟨some pid, "0", "0", some 0, false⟩) = some 0 := rfl
          simp [hz, this, zero_add]
  rw [hdisp]
  have hled : e.ledger = 0 := by rcases he with h | h <;> subst h <;> rfl
  rw [hled]
  cases hb : mapGet st.pendingRaised (ratToString pid) with
  | none => rfl
  | some b =>
      by_cases hz : b = 0
      · subst hz; simp
      · simp [hz]

theorem applyList_append (st : St) (xs ys : List RawEvent) :
    applyList st (xs ++ ys) =
      (applyList st xs).bind fun s => applyList s ys := by
  induction xs generalizing st with
  | nil => simp [applyList]
  | cons e rest ih =>
      simp only [List.cons_append, applyList]
      cases applyEvent st e with
      | none => rfl
      | some p => exact ih p.1

theorem applyList_ctr_run (pid : ℚ) (hp : 0 < pid) (ds : List ℤ) :
    ∀ (st : St) (acc : ℤ),
      mapGet st.pools (ratToString pid) = none →
      mapGet st.pendingRaised (ratToString pid) = some acc →
      0 ≤ st.lastScannedLedger →
      applyList st (ds.map (ctrEvent pid)) =
        some { st with
          pendingRaised := mapSet st.pendingRaised (ratToString pid) (acc + ds.sum) } := by
  induction ds with
  | nil =>
      intro st acc hpool hpend hcur
      simp [applyList, mapSet_eq_self_of_mapGet _ _ _ hpend]
  | cons d rest ih =>
      intro st acc hpool hpend hcur
      simp only [List.map_cons, applyList]
      rw [applyEvent_ctrEvent st pid d hp hpool]
      rw [hpend]
      simp only [Option.getD_some]
      rw [jsMax_eq_left _ _ hcur]
      rw [ih { st with
                pendingRaised := mapSet st.pendingRaised (ratToString pid) (acc + d)
                lastScannedLedger := st.lastScannedLedger }
            (acc + d) hpool (mapGet_mapSet_self _ _ _) hcur]
      simp [mapSet_mapSet_self, add_assoc]

theorem applyList_singleton (st : St) (e : RawEvent) :
    applyList st [e] = (applyEvent st e).map Prod.fst := by
  simp only [applyList]
  cases applyEvent st e with
  | none => rfl
  | some p => rfl

/-! ## Claim theorems -/

/-- C1: for every pool id and every sequence of contribution deltas applied
while that id is absent from the Registry, applying the creation event for
the id (creation payload `raised` absent or zero) afterwards yields a pool
whose `raised` is the decimal rendering of the exact sum of all buffered
deltas, for positive and negative deltas alike. -/
theorem c1_orphan_convergence (pid : ℚ) (hp : 0 < pid) (ds : List ℤ) (st : St)
    (hpool : mapGet st.pools (ratToString pid) = none)
    (hpend : mapGet st.pendingRaised (ratToString pid) = none)
    (hcur : 0 ≤ st.lastScannedLedger)
    (creation : RawEvent)
    (hc : creation = pcEvent pid ∨ creation = pcEventZero pid) :
    ∃ st' : St, applyList st (ds.map (ctrEvent pid) ++ [creation]) = some st' ∧
      (mapGet st'.pools (ratToString pid)).map Pool.raised = some (intStr ds.sum) := by
  rw [applyList_append]
  cases ds with
  | nil =>
      rw [List.map_nil]
      have h0 : applyList st [] = some st := rfl
      rw [h0]
      simp only [Option.bind_some, Option.some_bind]
      rw [applyList_singleton, applyEvent_creation st pid hp creation hc, hpend]
      refine ⟨_, rfl, ?_⟩
      rw [mapGet_mapSet_self]
      rfl
  | cons d rest =>
      simp only [List.map_cons, applyList]
      rw [applyEvent_ctrEvent st pid d hp hpool, hpend]
      simp only [Option.getD_none, zero_add, jsMax_eq_left _ _ hcur]
      rw [applyList_ctr_run pid hp rest
            { st with pendingRaised := mapSet st.pendingRaised (ratToString pid) d }
            d hpool (mapGet_mapSet_self _ _ _) hcur]
      simp only [Option.some_bind]
      rw [applyEvent_creation _ pid hp creation hc]
      have hpend2 : mapGet
          (mapSet (mapSet st.pendingRaised (ratToString pid) d) (ratToString pid)
            (d + rest.sum)) (ratToString pid) = some (d + rest.sum) :=
        mapGet_mapSet_self _ _ _
      rw [hpend2]
      by_cases hz : d + rest.sum = 0
      · simp only [hz, ne_eq, not_true_eq_false, if_neg, ite_false, not_not]
        refine ⟨_, rfl, ?_⟩
        rw [mapGet_mapSet_self]
        simp only [Option.map_some, List.sum_cons, hz]
        rfl
      · simp only [ne_eq, hz, not_false_eq_true, ite_true]
        refine ⟨_, rfl, ?_⟩
        rw [mapGet_mapSet_self]
        simp only [Option.map_some, List.sum_cons]
        rfl

/-- Witness for C1: pool id 7, orphan deltas 5 and -2, empty start state,
creation payload without a `raised` field; the merged pool shows
`raised = "3"`. -/
theorem c1_orphan_convergence_witness :
    (0 : ℚ) < 7 ∧
    (∃ st' : St, applyList emptySt ([5, -2].map (ctrEvent 7) ++ [pcEvent 7]) = some st' ∧
      (mapGet st'.pools (ratToString 7)).map Pool.raised =
        some (intStr ([5, -2] : List ℤ).sum)) :=
  ⟨by decide,
   c1_orphan_convergence 7 (by decide) [5, -2] emptySt rfl rfl (le_refl 0)
     (pcEvent 7) (Or.inl rfl)⟩


theorem findSome?_some_mem {α β : Type _} (f : α → Option β) :
    ∀ (l : List α) (b : β), l.findSome? f = some b → ∃ a ∈ l, f a = some b := by
  intro l
  induction l with
  | nil => intro b h; simp [List.findSome?] at h
  | cons a rest ih =>
      intro b h
      rw [List.findSome?] at h
      cases hf : f a with
      | some c => rw [hf] at h; injection h with h; subst h; exact ⟨a, by simp, hf⟩
      | none => rw [hf] at h; obtain ⟨x, hx, hfx⟩ := ih b h; exact ⟨x, by simp [hx], hfx⟩

theorem dispatchEvent_cursor (st : St) (pid : ℚ) (tag : String) (native : JsVal)
    (st' : St) (h : dispatchEvent st pid tag native = some st') :
    st'.lastScannedLedger = st.lastScannedLedger := by
  unfold dispatchEvent at h
  dsimp only at h
  repeat' split at h
  all_goals first
    | (injection h with h; subst h; rfl)
    | (cases h)

theorem applyEvent_cursor_cases (st : St) (e : RawEvent) (st' : St) (c : Bool)
    (h : applyEvent st e = some (st', c)) :
    st' = st ∨ st'.lastScannedLedger = jsMax st.lastScannedLedger e.ledger := by
  unfold applyEvent at h
  cases hx : extractPoolId e.native e.topics with
  | none =>
      rw [hx] at h
      injection h with h1
      exact Or.inl (congrArg Prod.fst h1).symm
  | some pid =>
      rw [hx] at h
      rw [Option.map_eq_some'] at h
      obtain ⟨s, hs, heq⟩ := h
      right
      have hc := dispatchEvent_cursor _ _ _ _ _ hs
      have h2 : st' = { s with lastScannedLedger := jsMax s.lastScannedLedger e.ledger } := by
        have := congrArg Prod.fst heq
        simpa using this.symm
      rw [h2]
      simp [hc]

/-- C4 counterexample: the claim asserts that for EVERY decoded event the
cursor advances to `max(cursor, ledger)`; but an event whose pool id does
not resolve is skipped BEFORE the cursor update (`if (!pid) continue`), so
an id-less event at ledger position 10 leaves the cursor at 0 instead of
`max 0 10 = 10`. -/
theorem c4_counterexample :
    applyEvent emptySt ⟨.vNull, [], 10⟩ = some (emptySt, false) ∧
    emptySt.lastScannedLedger = 0 ∧
    (0 : ℚ) ≠ max 0 10 :=
  ⟨by decide, rfl, by norm_num⟩

/-- C4 (amended): the Scan Cursor never decreases — per event and over a
whole event list — and for every event whose pool id resolves the cursor
advances to the maximum of its current value and the event's ledger
position; an event with an unresolved id leaves the state untouched. -/
theorem c4_cursor_monotone :
    (∀ (st : St) (e : RawEvent) (st' : St) (c : Bool),
        applyEvent st e = some (st', c) →
        st.lastScannedLedger ≤ st'.lastScannedLedger) ∧
    (∀ (st : St) (e : RawEvent) (st' : St) (c : Bool),
        applyEvent st e = some (st', c) →
        (extractPoolId e.native e.topics).isSome →
        st'.lastScannedLedger = max st.lastScannedLedger e.ledger) ∧
    (∀ (st : St) (e : RawEvent),
        extractPoolId e.native e.topics = none → applyEvent st e = some (st, false)) ∧
    (∀ (st : St) (es : List RawEvent) (st' : St),
        applyList st es = some st' →
        st.lastScannedLedger ≤ st'.lastScannedLedger) := by
  have h1 : ∀ (st : St) (e : RawEvent) (st' : St) (c : Bool),
      applyEvent st e = some (st', c) →
      st.lastScannedLedger ≤ st'.lastScannedLedger := by
    intro st e st' c h
    rcases applyEvent_cursor_cases st e st' c h with h2 | h2
    · rw [h2]
    · rw [h2]; exact le_jsMax_left _ _
  refine ⟨h1, ?_, ?_, ?_⟩
  · intro st e st' c h hsome
    unfold applyEvent at h
    cases hx : extractPoolId e.native e.topics with
    | none => rw [hx] at hsome; simp at hsome
    | some pid =>
        rw [hx] at h
        rw [Option.map_eq_some'] at h
        obtain ⟨s, hs, heq⟩ := h
        have hc := dispatchEvent_cursor _ _ _ _ _ hs
        have h2 : st' = { s with lastScannedLedger := jsMax s.lastScannedLedger e.ledger } := by
          have := congrArg Prod.fst heq
          simpa using this.symm
        rw [h2]
        simp [hc, jsMax_eq_max]
  · intro st e hx
    unfold applyEvent
    rw [hx]
  · intro st es
    induction es generalizing st with
    | nil =>
        intro st' h
        simp only [applyList] at h
        injection h with h
        rw [h]
    | cons e rest ih =>
        intro st' h
        simp only [applyList] at h
        cases ha : applyEvent st e with
        | none => rw [ha] at h; cases h
        | some p =>
            rw [ha] at h
            exact le_trans (h1 st e p.1 p.2 ha) (ih p.1 st' h)

/-- Witness for the amended C4 at concrete inputs: a contribution event for
pool 7 at ledger 0, an id-less event, and a one-event list. -/
theorem c4_cursor_monotone_witness :
    emptySt.lastScannedLedger ≤ (⟨[], [("7", 5)], 0⟩ : St).lastScannedLedger ∧
    (⟨[], [("7", 5)], 0⟩ : St).lastScannedLedger =
      max emptySt.lastScannedLedger (ctrEvent 7 5).ledger ∧
    applyEvent emptySt ⟨.vNull, [], 10⟩ = some (emptySt, false) ∧
    emptySt.lastScannedLedger ≤ (⟨[], [("7", 5)], 0⟩ : St).lastScannedLedger := by
  have h : applyEvent emptySt (ctrEvent 7 5) = some (⟨[], [("7", 5)], 0⟩, true) := by decide
  refine ⟨c4_cursor_monotone.1 _ _ _ _ h,
          c4_cursor_monotone.2.1 _ _ _ _ h (by decide),
          c4_cursor_monotone.2.2.1 _ _ (by decide), ?_⟩
  have hl : applyList emptySt [ctrEvent 7 5] = some ⟨[], [("7", 5)], 0⟩ := by decide
  exact c4_cursor_monotone.2.2.2 _ _ _ hl

/-- C3 counterexample: contributions of +5 and -5 for absent pool 7 leave
a zero-valued Orphan Buffer entry; the creation event then does NOT remove
it (the source deletes the entry only when `buff !== 0n`), so after
creation the buffer still holds `("7", 0)` — refuting removal "for every
buffered delta value including a zero net delta". -/
theorem c3_counterexample :
    applyList emptySt [ctrEvent 7 5, ctrEvent 7 (-5), pcEvent 7] =
      some ⟨[("7", ⟨some 7, "0", "0", some 0, false⟩)], [("7", 0)], 0⟩ := by decide

/-- C3 (amended): applying the creation event consumes and removes the
Orphan Buffer entry exactly when its buffered value is nonzero; a
zero-valued entry is left in the buffer unchanged (it no longer affects
`raised`). -/
theorem c3_orphan_consumed (st : St) (pid : ℚ) (hp : 0 < pid) (b : ℤ)
    (hpend : mapGet st.pendingRaised (ratToString pid) = some b)
    (hnd : (st.pendingRaised.map Prod.fst).Nodup) :
    ∃ stp : St × Bool, applyEvent st (pcEvent pid) = some stp ∧
      (b ≠ 0 → mapGet stp.1.pendingRaised (ratToString pid) = none) ∧
      (b = 0 → stp.1.pendingRaised = st.pendingRaised) := by
  rw [applyEvent_creation st pid hp (pcEvent pid) (Or.inl rfl), hpend]
  by_cases hz : b = 0
  · subst hz
    exact ⟨_, rfl, fun h => absurd rfl h, fun _ => rfl⟩
  · refine ⟨({ st with
        pools := mapSet st.pools (ratToString pid)
          ⟨some pid, "0", intStr b, some 0, false⟩
        pendingRaised := mapDelete st.pendingRaised (ratToString pid)
        lastScannedLedger := jsMax st.lastScannedLedger 0 }, true), ?_,
      fun _ => mapGet_mapDelete_self _ _ hnd, fun h => absurd h hz⟩
    show (if b ≠ 0 then _ else _) = _
    rw [if_pos hz]

/-- Witness for the amended C3: buffer entry 3 for pool 7 is removed by
the creation event. -/
theorem c3_orphan_consumed_witness :
    (3 : ℤ) ≠ 0 ∧
    mapGet ((applyEvent ⟨[], [("7", 3)], 0⟩ (pcEvent 7)).getD
      (emptySt, false)).1.pendingRaised (ratToString 7) = none := by
  obtain ⟨stp, heq, h1, _⟩ :=
    c3_orphan_consumed ⟨[], [("7", 3)], 0⟩ 7 (by decide) 3 (by decide) (by decide)
  refine ⟨by decide, ?_⟩
  rw [heq]
  exact h1 (by decide)

/-- C7 counterexample: a payload id field holding the JS number 1.5 is
resolved by `extractPoolId` (the source checks only
`Number.isFinite(n) && n > 0`), although 1.5 is not a positive integer —
refuting "it never resolves an id from a value that is not a positive
integer". -/
theorem c7_counterexample :
    extractPoolId (JsVal.obj [("id", .vNum (mkRat 3 2))]) [] = some (mkRat 3 2) ∧
    (mkRat 3 2).den ≠ 1 := by decide

theorem posNum_pos (t : JsVal) (q : ℚ) (h : posNum t = some q) : 0 < q := by
  unfold posNum at h
  split at h
  · split at h
    · injection h with h; subst h; assumption
    · cases h
  · cases h

theorem firstIdField_pos (native : JsVal) (q : ℚ)
    (h : firstIdField native = some q) : 0 < q := by
  unfold firstIdField at h
  cases native with
  | vObj fields =>
      obtain ⟨k, _, hk⟩ := findSome?_some_mem _ _ _ h
      split at hk
      · split at hk
        · injection hk with hk; subst hk; assumption
        · cases hk
      · cases hk
  | vNull => cases h
  | vBool b => cases h
  | vNum r => cases h
  | vNaN => cases h
  | vBigInt i => cases h
  | vStr s => cases h
  | vArr es => cases h

/-- C7 (amended): pool-id extraction resolves, in the stated order, the
first candidate whose JS `Number` conversion is finite and POSITIVE — but
not necessarily an integer (payload id 1.5 resolves to 1.5); a resolved id
is always positive, and an event whose id does not resolve is skipped
without aborting the pass and without modifying the state. -/
theorem c7_extract_pool_id :
    (∀ (native : JsVal) (topics : List JsVal) (q : ℚ),
        extractPoolId native topics = some q → 0 < q) ∧
    (∀ (st : St) (e : RawEvent),
        extractPoolId e.native e.topics = none → applyEvent st e = some (st, false)) := by
  constructor
  · intro native topics q h
    unfold extractPoolId at h
    cases hf : firstIdField native with
    | some r =>
        rw [hf] at h
        simp only [Option.orElse] at h
        injection h with h
        rw [← h]
        exact firstIdField_pos native r hf
    | none =>
        rw [hf] at h
        simp only [Option.orElse] at h
        cases ht : (topics.get? 1).bind posNum with
        | some r =>
            rw [ht] at h
            simp only at h
            injection h with h
            subst h
            cases h2 : topics.get? 1 with
            | none => rw [h2] at ht; cases ht
            | some t => rw [h2] at ht; exact posNum_pos t _ ht
        | none =>
            rw [ht] at h
            simp only at h
            obtain ⟨t, _, hpt⟩ := findSome?_some_mem _ _ _ h
            exact posNum_pos t q hpt
  · intro st e hx
    unfold applyEvent
    rw [hx]

/-- Witness for the amended C7: the id resolved from topic index 1 of a
contribution event is positive, and an id-less event is a no-op. -/
theorem c7_extract_pool_id_witness :
    (0 : ℚ) < 7 ∧ applyEvent emptySt ⟨.vNaN, [], 10⟩ = some (emptySt, false) :=
  ⟨c7_extract_pool_id.1 (ctrEvent 7 5).native (ctrEvent 7 5).topics 7 (by decide),
   c7_extract_pool_id.2 emptySt ⟨.vNaN, [], 10⟩ (by decide)⟩

/-- C8: derived status at read time.  A finalized pool reads `finalized`;
an unfinalized pool past its deadline reads `expired`; an unfinalized pool
within its deadline whose stored `raised` is at least its `goal` reads
`funded`. -/
theorem c8_derived_status (now : ℚ) (p : Pool) :
    (p.finalized = true → poolStatus now p = some .finalized) ∧
    (p.finalized = false → jsDeadlinePast now p.deadline = true →
        poolStatus now p = some .expired) ∧
    (∀ r g : ℤ, p.finalized = false → jsDeadlinePast now p.deadline = false →
        strToBigInt p.raised = some r → strToBigInt p.goal = some g → g ≤ r →
        poolStatus now p = some .funded) := by
  refine ⟨fun h => ?_, fun h1 h2 => ?_, fun r g h1 h2 hr hg hle => ?_⟩
  · simp [poolStatus, h]
  · simp [poolStatus, h1, h2]
  · simp [poolStatus, h1, h2, hr, hg, hle]

/-- Witness for C8: running creation (goal 1000, future deadline) then
contributions 600 and 400 through the reconciler yields a pool whose
status at time 100 is `funded`; an expired and a finalized pool are also
checked. -/
theorem c8_derived_status_witness :
    applyList emptySt
      [⟨JsVal.obj [("goal", .vNum 1000), ("deadline", .vNum 999999)],
         [.vStr "PC", .vNum 7], 0⟩,
       ctrEvent 7 600, ctrEvent 7 400] =
      some ⟨[("7", ⟨some 7, "1000", "1000", some 999999, false⟩)], [], 0⟩ ∧
    poolStatus 100 ⟨some 7, "1000", "1000", some 999999, false⟩ = some .funded ∧
    poolStatus 100 ⟨some 7, "1000", "500", some 50, false⟩ = some .expired ∧
    poolStatus 100 ⟨some 7, "1000", "0", some 999999, true⟩ = some .finalized := by
  refine ⟨by decide, ?_, ?_, ?_⟩
  · exact (c8_derived_status 100 _).2.2 1000 1000 rfl (by decide) (by decide) (by decide)
      (by decide)
  · exact (c8_derived_status 100 _).2.1 rfl (by decide)
  · exact (c8_derived_status 100 _).1 rfl

theorem jsMax_eq_right (a b : ℚ) (h : a ≤ b) : jsMax a b = b := by
  rw [jsMax_eq_max]; exact max_eq_right h

theorem load_fold (l : List (String × Pool)) :
    ∀ (acc : List (String × Pool)),
      (∀ kp ∈ l, kp.2.id.map ratToString = some kp.1) →
      (∀ k ∈ l.map Prod.fst, k ∉ acc.map Prod.fst) →
      (l.map Prod.fst).Nodup →
      (l.map Prod.snd).foldl (fun m p => mapSet m (idKey p.id) p) acc = acc ++ l := by
  induction l with
  | nil => intro acc _ _ _; simp
  | cons kp rest ih =>
      intro acc hk hdisj hnd
      obtain ⟨k, p⟩ := kp
      rw [List.map_cons] at hnd
      have hnd' := List.nodup_cons.mp hnd
      have hkey : idKey p.id = k := by
        have h1 := hk (k, p) (List.mem_cons_self _ _)
        cases hid : p.id with
        | none => rw [hid] at h1; simp at h1
        | some q =>
            rw [hid] at h1
            simp only [Option.map_some', Option.some.injEq] at h1
            simp [idKey, h1]
      have hdisj2 : ∀ k2 ∈ rest.map Prod.fst, k2 ∉ (acc ++ [(k, p)]).map Prod.fst := by
        intro k2 h2 hmem
        rw [List.map_append] at hmem
        rcases List.mem_append.mp hmem with h | h
        · exact hdisj k2 (by simp [h2]) h
        · have hEq : k2 = k := by simpa using h
          subst hEq
          exact hnd'.1 h2
      simp only [List.map_cons, List.foldl_cons]
      rw [hkey, mapSet_append_of_not_mem acc k p (hdisj k (by simp))]
      rw [ih (acc ++ [(k, p)]) (fun kp2 h2 => hk kp2 (List.mem_cons_of_mem _ h2))
            hdisj2 hnd'.2]
      simp

/-- C6 counterexample: a pool registered through the batch endpoint under
the raw id string `"007"` (stored id `Number("007") = 7`) is re-keyed to
`"7"` by a save/load round trip, so the restored registry mapping differs
from the original one — refuting the round trip "for every Registry
contents". -/
theorem c6_counterexample :
    (loadStateModel (registerBatchItem emptySt (JsVal.obj [("id", .vStr "007")]))
        (saveStateModel (registerBatchItem emptySt (JsVal.obj [("id", .vStr "007")])))).pools ≠
      (registerBatchItem emptySt (JsVal.obj [("id", .vStr "007")])).pools := by decide

/-- C6 (amended): a save/load round trip reproduces the registry exactly
when every key is the canonical string of its pool's numeric id (the form
hydration and single registration produce), the keys are distinct, the
deadlines are numbers (a NaN deadline would not survive the JSON layer),
and the cursor is nonnegative; non-canonical keys (batch registration with
a string like "007") are re-keyed to canonical form instead. -/
theorem c6_roundtrip (st : St)
    (hkeys : ∀ kp ∈ st.pools, kp.2.id.map ratToString = some kp.1)
    (_hdl : ∀ kp ∈ st.pools, kp.2.deadline ≠ none)
    (hnd : (st.pools.map Prod.fst).Nodup)
    (hcur : 0 ≤ st.lastScannedLedger) :
    loadStateModel st (saveStateModel st) = st := by
  unfold loadStateModel saveStateModel
  rw [load_fold st.pools [] hkeys (by simp) hnd]
  rw [jsMax_eq_right 0 st.lastScannedLedger hcur]
  simp

/-- Witness for the amended C6: a one-pool canonical registry with cursor
3 round-trips to itself. -/
theorem c6_roundtrip_witness :
    loadStateModel ⟨[("7", ⟨some 7, "100", "0", some 5, false⟩)], [], 3⟩
      (saveStateModel ⟨[("7", ⟨some 7, "100", "0", some 5, false⟩)], [], 3⟩) =
      ⟨[("7", ⟨some 7, "100", "0", some 5, false⟩)], [], 3⟩ :=
  c6_roundtrip ⟨[("7", ⟨some 7, "100", "0", some 5, false⟩)], [], 3⟩
    (by decide) (by decide) (by decide) (by decide)

/-- The pool stored by `POST /api/pools/register` for the body
`{pool: {id: 7}}`: the missing `goal` stringifies to `"undefined"` and the
missing `deadline` becomes NaN. -/
def c9Pool : Pool := ⟨some 7, "undefined", "0", none, false⟩

/-- C9: registering a pool with an id but no goal is accepted (the handler
answers ok, stored goal is the string "undefined"), and every subsequent
listing read that derives statuses over a registry containing this pool
throws (HTTP 500), because `BigInt("undefined")` throws. -/
theorem c9_register_missing_goal (st : St) (now : ℚ) :
    registerPoolHandler st (some (JsVal.obj [("id", .vNum 7)])) =
      .ok { st with pools := mapSet st.pools "7" c9Pool } ∧
    c9Pool.goal = "undefined" ∧
    listWithStatus now ((mapSet st.pools "7" c9Pool).map Prod.snd) = none := by
  refine ⟨rfl, rfl, ?_⟩
  exact listWithStatus_none_of_mem now _ c9Pool
    (List.mem_map_of_mem Prod.snd (mem_mapSet_self _ _ _)) rfl

/-- C2 counterexample: a pass whose first page fetch fails with an
unclassified error makes exactly one fetch attempt (the pass is aborted,
the rest of the script is never consumed), yet `hydrate` completes
NORMALLY — the caller gets a resolved promise, not a fatal pass failure,
because the error is only logged (`break`, then the outer
`catch`/`finally` swallow everything). -/
theorem c2_counterexample :
    hydrateModel 200000 150000 [.err .other, .ok ⟨[], none⟩] none emptySt =
      .resolved emptySt ∧
    (fetchLoop 200000 150000 [.err .other, .ok ⟨[], none⟩] 50000 emptySt 0 []).attempts =
      [50000] ∧
    (fetchLoop 200000 150000 [.err .other, .ok ⟨[], none⟩] 50000 emptySt 0 []).threw =
      false := by decide

/-- C2 (amended): an unclassified fetch error aborts the pass — the loop
stops at that attempt with the state unchanged and no further page is
fetched — but the caller of `hydrate` receives a NORMAL completion (the
promise never rejects); the error is logged and swallowed. -/
theorem c2_unclassified_error_aborts :
    (∀ (tip window start : ℚ) (st : St) (n : ℕ) (tr : List ℚ)
        (rest : List FetchResult),
        fetchLoop tip window (.err .other :: rest) start st n tr =
          ⟨tr ++ [start], start, st, n, false, false⟩) ∧
    (∀ (tip window : ℚ) (script : List FetchResult) (fl : Option ℚ) (st : St),
        hydrateModel tip window script fl st ≠ .rejected) := by
  constructor
  · intro tip window start st n tr rest
    rfl
  · intro tip window script fl st h
    exact HydrateOutcome.noConfusion h

/-- C5: the range negotiation never issues the retry it computes.  On a
classified error the source sets `start`, clears `paginationToken` and
runs `continue retryFetch`; in a do-while loop `continue` jumps to the
test `while (paginationToken)`, which is now falsy, so the loop exits.
With the allowed range 100-500: from start 50 the adjusted start 100 is
computed (finalStart) but only ONE fetch attempt happens even though a
further page response was available; likewise from start 900
(`max(100, 500 - W) = 100`) and for "must be positive" with tip 200000
(`max(1, tip - W) = 50000`). -/
theorem c5_no_retry_after_range_error :
    (fetchLoop 1000 150000 [.err (.outOfRange 100 500), .ok ⟨[], none⟩] 50 emptySt 0 [] =
      ⟨[50], 100, emptySt, 0, false, false⟩) ∧
    (fetchLoop 1000 150000 [.err (.outOfRange 100 500), .ok ⟨[], none⟩] 900 emptySt 0 [] =
      ⟨[900], 100, emptySt, 0, false, false⟩) ∧
    (fetchLoop 200000 150000 [.err .mustBePositive, .ok ⟨[], none⟩] 0 emptySt 0 [] =
      ⟨[0], 50000, emptySt, 0, false, false⟩) := by decide

/-- C10: two `hydrate` calls while a pass is in flight share one
underlying pass: the second caller receives the first caller's promise
(same outcome), exactly one pass is started, and completion clears the
gate before handing the shared promise to the waiters. -/
theorem c10_single_flight :
    (hydrateCall coordInit 1).2 = 1 ∧
    (hydrateCall (hydrateCall coordInit 1).1 2).2 = 1 ∧
    (hydrateCall (hydrateCall coordInit 1).1 2).1.started = [1] ∧
    (passComplete (hydrateCall (hydrateCall coordInit 1).1 2).1).1.hydratingPromise = none ∧
    (passComplete (hydrateCall (hydrateCall coordInit 1).1 2).1).2 = some 1 := by decide

end JsServer
